import Mathlib

/-!
Verification of the secure_chat session-key protocol and message envelope
codec against its natural-language specification.

The embedding models the client component `src/UI/src/components/Chat.tsx`
(the variant the claims cite by line number), the application shells
`src/UI/src/App.tsx` and the unnamed App variant `src/unnamed/part_003`,
and the Directory Service routes `src/unnamed/part_000`
(`server/src/routes/chat.routes.ts` extended with the session-key and
delete-public-key endpoints).

Platform crypto primitives (WebCrypto SHA-256, AES-GCM, RSA-OAEP) are
modelled as abstract function parameters bundled in `CryptoPrims`;
randomness (fresh AES keys, fresh IVs) is passed explicitly to the
operations that generate it.  An AES `CryptoKey` is represented by its
raw exported byte content (`AESKey.raw`), so `exportAESKey`/`importAESKey`
are the projection and constructor, which is faithful to WebCrypto raw
export/import of extractable keys.
-/

namespace SecureChat

/-- An AES session key, represented by its raw exported content
(the base64 string produced by `exportAESKey` in `utils/crypto.ts`). -/
structure AESKey where
  raw : String
deriving DecidableEq, Repr

/-- Abstract platform crypto primitives from `src/UI/src/utils/crypto.ts`:
`sha256`, `aesEncrypt` (key, iv, plaintext to base64 ciphertext),
`aesDecrypt` (base64 ciphertext, base64 iv, key; `none` models the
rejection thrown on a bad decode or failed AES-GCM authentication), and
`rsaEncrypt` (plaintext, public key string). -/
structure CryptoPrims where
  sha : String → String
  aesEnc : String → String → String → String
  aesDec : String → String → String → Option String
  rsaEnc : String → String → String

/-- First-match lookup in an association list keyed by strings; models
`localStorage.getItem` and `Map.prototype.get`. -/
def lookupEntry {α : Type} : List (String × α) → String → Option α
  | [], _ => none
  | (k', v) :: rest, k => if k' = k then some v else lookupEntry rest k

/-- First-match overwrite-or-append in an association list; models
`localStorage.setItem` and `Map.prototype.set`. -/
def updateEntry {α : Type} : List (String × α) → String → α → List (String × α)
  | [], k, v => [(k, v)]
  | (k', v') :: rest, k, v =>
      if k' = k then (k, v) :: rest else (k', v') :: updateEntry rest k v

/-- Removal of a key from an association list; models
`localStorage.removeItem`. -/
def removeEntry {α : Type} (store : List (String × α)) (k : String) :
    List (String × α) :=
  store.filter (fun p => p.1 != k)

/-- Worker for JavaScript `String.prototype.split` with a one-character
separator: returns the segment up to the first separator and the list of
the remaining segments. -/
def splitAux (sep : Char) : List Char → List Char × List (List Char)
  | [] => ([], [])
  | c :: cs =>
      let rest := splitAux sep cs
      if c = sep then ([], rest.1 :: rest.2) else (c :: rest.1, rest.2)

/-- JavaScript `s.split(sep)` for a one-character separator: splits at
every occurrence, keeping empty segments; always returns at least one
segment. -/
def jsSplit (s : String) (sep : Char) : List String :=
  ((splitAux sep s.data).1 :: (splitAux sep s.data).2).map (fun l => String.mk l)

/-- A string free of the `':'` envelope delimiter.  Base64 output
(`btoa`) never contains `':'`, so both halves of an envelope satisfy
this. -/
def NoColon (s : String) : Prop := ':' ∉ s.data

instance (s : String) : Decidable (NoColon s) :=
  decidable_of_iff (':' ∉ s.data) Iff.rfl

/-- A stored message document (`server/src/models/Message.ts` /
the `Message` interface in `Chat.tsx`): `_id`, sender, receiver,
`encryptedContent` (the envelope), `messageHash` (the digest) and
timestamp. -/
structure StoredMessage where
  id : String
  sender : String
  receiver : String
  encryptedContent : String
  messageHash : String
  timestamp : Nat
deriving DecidableEq, Repr

/-- Directory Service state: registered users, published public keys
(unique per username, per the schema's unique index), directed encrypted
session-key records `(sender, receiver, encryptedKey)` (unique per
directed pair), and stored messages. -/
structure ServerState where
  users : List String
  publicKeys : List (String × String)
  sessionKeys : List (String × String × String)
  messages : List StoredMessage
deriving DecidableEq, Repr

/-- `GET /public-key/:username` (part_000 lines 40-55): look up the
published public key; `none` models the 404 response. -/
def getPublicKeyRoute (ss : ServerState) (username : String) : Option String :=
  lookupEntry ss.publicKeys username

/-- `POST /public-key` (part_000 lines 10-38): requires the user to
exist (else 404, modelled as `none`), then upserts the key. -/
def storePublicKeyRoute (ss : ServerState) (username publicKey : String) :
    Option ServerState :=
  if ss.users.contains username then
    some { ss with publicKeys := updateEntry ss.publicKeys username publicKey }
  else none

/-- `DELETE /public-key/:username` (part_000 lines 58-70):
`findOneAndDelete` on the unique username index; always succeeds. -/
def deletePublicKeyRoute (ss : ServerState) (username : String) : ServerState :=
  { ss with publicKeys := ss.publicKeys.filter (fun p => p.1 != username) }

/-- First directed record matching `(sender, receiver)` exactly. -/
def findSessionKeyEntry : List (String × String × String) → String → String →
    Option (String × String × String)
  | [], _, _ => none
  | e :: rest, s, r =>
      if e.1 = s ∧ e.2.1 = r then some e else findSessionKeyEntry rest s r

/-- `GET /session-key/:sender/:receiver` (part_000 lines 186-212): try
the exact direction first, then the reverse; `none` models the 404. -/
def getSessionKeyRoute (ss : ServerState) (sender receiver : String) :
    Option (String × String × String) :=
  match findSessionKeyEntry ss.sessionKeys sender receiver with
  | some e => some e
  | none => findSessionKeyEntry ss.sessionKeys receiver sender

/-- Upsert of a directed session-key record on its exact direction. -/
def upsertSessionKey : List (String × String × String) → String → String →
    String → List (String × String × String)
  | [], s, r, k => [(s, r, k)]
  | e :: rest, s, r, k =>
      if e.1 = s ∧ e.2.1 = r then (s, r, k) :: rest
      else e :: upsertSessionKey rest s r k

/-- `POST /session-key` (part_000 lines 153-184): both users must exist
(else 404, modelled as `none`); upserts the directed record. -/
def storeSessionKeyRoute (ss : ServerState) (sender receiver encryptedKey : String) :
    Option ServerState :=
  if ss.users.contains sender && ss.users.contains receiver then
    some { ss with sessionKeys := upsertSessionKey ss.sessionKeys sender receiver encryptedKey }
  else none

/-- `POST /messages` (part_000 lines 72-108): both users must exist
(else 404); appends the message document. -/
def sendMessageRoute (ss : ServerState) (msg : StoredMessage) : Option ServerState :=
  if ss.users.contains msg.sender && ss.users.contains msg.receiver then
    some { ss with messages := ss.messages ++ [msg] }
  else none

/-- Insertion into a timestamp-ascending list, preserving the relative
order of equal timestamps. -/
def insertByTimestamp (m : StoredMessage) : List StoredMessage → List StoredMessage
  | [] => [m]
  | x :: xs =>
      if x.timestamp ≤ m.timestamp then x :: insertByTimestamp m xs
      else m :: x :: xs

/-- Sort by timestamp ascending (models Mongo `.sort(\x7btimestamp: 1\x7d)`). -/
def sortByTimestamp : List StoredMessage → List StoredMessage
  | [] => []
  | x :: xs => insertByTimestamp x (sortByTimestamp xs)

/-- `GET /messages/:user1/:user2` (part_000 lines 110-127): messages of
the unordered pair, sorted by timestamp ascending. -/
def getMessagesRoute (ss : ServerState) (user1 user2 : String) : List StoredMessage :=
  sortByTimestamp (ss.messages.filter (fun m =>
    (m.sender == user1 && m.receiver == user2) ||
    (m.sender == user2 && m.receiver == user1)))

/-- `GET /users` (part_000 lines 129-151): usernames with a published
public key (online users), minus the excluded caller, realised as user
documents. -/
def listUsersRoute (ss : ServerState) (exclude : Option String) : List String :=
  let onlineUsernames := ss.publicKeys.map (fun p => p.1)
  let filtered :=
    match exclude with
    | some e => onlineUsernames.filter (fun u => u != e)
    | none => onlineUsernames
  ss.users.filter (fun u => filtered.contains u)

/-- Client-side state of one browser tab running the `Chat` component
(`Chat.tsx` lines 43-57 and the App shell): the logged-in username, the
in-memory RSA key pair refs (`privateKeyRef`, `publicKeyRef`), the
in-memory AES session-key cache (`aesKeysRef`), and the browser's
`localStorage` and `sessionStorage`. -/
structure ClientState where
  currentUser : String
  privateKeyRef : Option String
  publicKeyRef : String
  aesKeysRef : List (String × AESKey)
  localStorage : List (String × String)
  sessionStorage : List (String × String)
deriving DecidableEq, Repr

/-- The whole system: one client tab plus the Directory Service. -/
structure Sys where
  client : ClientState
  server : ServerState
deriving DecidableEq, Repr

/-- Network requests issued by the client (`chatAPI` in
`services/api.ts`), recorded with their payloads. -/
inductive ApiCall where
  | getPublicKey (username : String)
  | storePublicKey (username publicKey : String)
  | deletePublicKey (username : String)
  | getSessionKey (sender receiver : String)
  | storeSessionKey (sender receiver encryptedKey : String)
  | sendMessage (sender receiver encryptedContent messageHash : String)
  | getMessages (user1 user2 : String)
  | getUsers (exclude : String)
deriving DecidableEq, Repr

/-- Per-message decryption failures inside `decryptMessage`
(`Chat.tsx` lines 179-219): no session key found (the explicit
`throw new Error`), a malformed envelope (the `atob` rejection when the
split yields no second component), or an AES-GCM decryption failure. -/
inductive DecErr where
  | noSessionKey
  | malformedEnvelope
  | decryptionFailed
deriving DecidableEq, Repr

/-- The localStorage key template literal
`sessionKey_<first>_<second>` used throughout `Chat.tsx`. -/
def sessionKeyName (first second : String) : String :=
  "sessionKey_" ++ first ++ "_" ++ second

/-- `exchangeSessionKey` (`Chat.tsx` lines 162-177): fetch the peer's
public key, RSA-encrypt the exported session key (binding the result to
a variable that is never used again), and store the plaintext exported
key in localStorage under the reverse-named entry
`sessionKey_<peer>_<currentUser>`.  The whole body is wrapped in
`try/catch` with only a `console.error`, so a missing public key (404)
leaves the state unchanged and surfaces no error. -/
def exchangeSessionKey (P : CryptoPrims) (sys : Sys) (username : String)
    (sessionKey : AESKey) : Sys × List ApiCall :=
  match getPublicKeyRoute sys.server username with
  | none => (sys, [ApiCall.getPublicKey username])
  | some theirPublicKey =>
      let exportedSessionKey := sessionKey.raw
      let _encrypted := P.rsaEnc exportedSessionKey theirPublicKey
      ({ sys with client := { sys.client with
          localStorage := updateEntry sys.client.localStorage
            (sessionKeyName username sys.client.currentUser) exportedSessionKey } },
       [ApiCall.getPublicKey username])

/-- `getOrCreateSessionKey` (`Chat.tsx` lines 135-160): return the
cached key if present; else import the localStorage entry
`sessionKey_<currentUser>_<peer>` if present; else generate a fresh key
(`fresh` stands for the `generateAESKey()` output), cache it, persist
it under the same entry, and run `exchangeSessionKey`.  No Directory
Service query for a directed record is made on any path. -/
def getOrCreateSessionKey (P : CryptoPrims) (fresh : AESKey) (sys : Sys)
    (username : String) : AESKey × Sys × List ApiCall :=
  match lookupEntry sys.client.aesKeysRef username with
  | some sessionKey => (sessionKey, sys, [])
  | none =>
      match lookupEntry sys.client.localStorage
          (sessionKeyName sys.client.currentUser username) with
      | some storedKey =>
          let sessionKey := AESKey.mk storedKey
          (sessionKey,
           { sys with client := { sys.client with
               aesKeysRef := updateEntry sys.client.aesKeysRef username sessionKey } },
           [])
      | none =>
          let sessionKey := fresh
          let exportedKey := sessionKey.raw
          let sys1 := { sys with client := { sys.client with
              aesKeysRef := updateEntry sys.client.aesKeysRef username sessionKey,
              localStorage := updateEntry sys.client.localStorage
                (sessionKeyName sys.client.currentUser username) exportedKey } }
          let (sys2, calls) := exchangeSessionKey P sys1 username sessionKey
          (sessionKey, sys2, calls)

/-- The session-key resolution block of `decryptMessage` (`Chat.tsx`
lines 184-201): in-memory cache, then the entry
`sessionKey_<currentUser>_<other>`, then the reverse-named entry
`sessionKey_<other>_<currentUser>`; imported keys are cached. -/
def resolveSessionKey (cs : ClientState) (otherUser : String) :
    Except DecErr (AESKey × ClientState) :=
  match lookupEntry cs.aesKeysRef otherUser with
  | some sessionKey => .ok (sessionKey, cs)
  | none =>
      match lookupEntry cs.localStorage (sessionKeyName cs.currentUser otherUser) with
      | some storedKey =>
          let sessionKey := AESKey.mk storedKey
          .ok (sessionKey, { cs with
            aesKeysRef := updateEntry cs.aesKeysRef otherUser sessionKey })
      | none =>
          match lookupEntry cs.localStorage (sessionKeyName otherUser cs.currentUser) with
          | some reverseKey =>
              let sessionKey := AESKey.mk reverseKey
              .ok (sessionKey, { cs with
                aesKeysRef := updateEntry cs.aesKeysRef otherUser sessionKey })
          | none => .error .noSessionKey

/-- The envelope-opening block of `decryptMessage` (`Chat.tsx` lines
203-217): destructure `encryptedContent.split(':')` into the first two
components (a missing second component makes `aesDecrypt` reject on
`atob(undefined)`), AES-decrypt, and compare the SHA-256 of the
plaintext with the stored digest to compute `verified`. -/
def openEnvelope (P : CryptoPrims) (key : AESKey)
    (encryptedContent messageHash : String) : Except DecErr (String × Bool) :=
  let parts := jsSplit encryptedContent ':'
  let ciphertext := parts.headD ""
  match parts[1]? with
  | none => .error .malformedEnvelope
  | some iv =>
      match P.aesDec ciphertext iv key.raw with
      | none => .error .decryptionFailed
      | some content => .ok (content, P.sha content == messageHash)

/-- The decrypted-message view produced by `decryptMessage`. -/
structure DecryptedMessage where
  id : String
  sender : String
  receiver : String
  content : String
  timestamp : Nat
  verified : Bool
deriving DecidableEq, Repr

/-- `decryptMessage` (`Chat.tsx` lines 179-219): identify the
conversation partner, resolve the session key, open the envelope, and
return plaintext plus the `verified` flag. -/
def decryptMessage (P : CryptoPrims) (cs : ClientState) (msg : StoredMessage) :
    Except DecErr DecryptedMessage × ClientState :=
  let isReceived := msg.receiver == cs.currentUser
  let otherUser := if isReceived then msg.sender else msg.receiver
  match resolveSessionKey cs otherUser with
  | .error e => (.error e, cs)
  | .ok (sessionKey, cs') =>
      match openEnvelope P sessionKey msg.encryptedContent msg.messageHash with
      | .error e => (.error e, cs')
      | .ok (content, verified) =>
          (.ok { id := msg.id, sender := msg.sender, receiver := msg.receiver,
                 content := content, timestamp := msg.timestamp,
                 verified := verified }, cs')

/-- The per-message fallback value produced by the `catch` inside
`fetchMessages` (`Chat.tsx` lines 113-121). -/
def failedMarker (msg : StoredMessage) : DecryptedMessage :=
  { id := msg.id, sender := msg.sender, receiver := msg.receiver,
    content := "[Decryption failed]", timestamp := msg.timestamp,
    verified := false }

/-- The batch decryption of `fetchMessages` (`Chat.tsx` lines 108-126):
each message is decrypted under its own `try/catch`, a failure becoming
the `[Decryption failed]` marker with `verified := false`. -/
def batchDecrypt (P : CryptoPrims) (cs : ClientState) :
    List StoredMessage → List DecryptedMessage × ClientState
  | [] => ([], cs)
  | msg :: rest =>
      let (r, cs') := decryptMessage P cs msg
      let d := match r with
        | .ok d => d
        | .error _ => failedMarker msg
      let (ds, cs'') := batchDecrypt P cs' rest
      (d :: ds, cs'')

/-- `fetchMessages` (`Chat.tsx` lines 104-132): fetch the conversation
from the Directory Service and batch-decrypt it. -/
def fetchMessages (P : CryptoPrims) (sys : Sys) (selectedUser : String) :
    List DecryptedMessage × Sys × List ApiCall :=
  let msgs := getMessagesRoute sys.server sys.client.currentUser selectedUser
  let (ds, cs') := batchDecrypt P sys.client msgs
  (ds, { sys with client := cs' },
   [ApiCall.getMessages sys.client.currentUser selectedUser])

/-- The hash-and-encrypt steps of `handleSendMessage` (`Chat.tsx` lines
229-236): `messageHash := sha256(p)` and
`encryptedContent := ciphertext ++ ":" ++ iv` from AES-GCM encryption
under the session key with the fresh iv `ivB64`. -/
def sealMessage (P : CryptoPrims) (sessionKey : AESKey) (ivB64 newMessage : String) :
    String × String :=
  (P.sha newMessage, P.aesEnc sessionKey.raw ivB64 newMessage ++ ":" ++ ivB64)

/-- `handleSendMessage` (`Chat.tsx` lines 221-251): guard on a blank
message, obtain the session key, seal the plaintext, post it to the
Directory Service and re-fetch the conversation.  `fresh` and `ivB64`
stand for the generated randomness, `msgId`/`now` for the server-side
document id and timestamp. -/
def handleSendMessage (P : CryptoPrims) (fresh : AESKey) (ivB64 msgId : String)
    (now : Nat) (sys : Sys) (selectedUser newMessage : String) :
    List DecryptedMessage × Sys × List ApiCall :=
  if newMessage.trim == "" then ([], sys, []) else
  let (sessionKey, sys1, calls1) := getOrCreateSessionKey P fresh sys selectedUser
  let (messageHash, encryptedContent) := sealMessage P sessionKey ivB64 newMessage
  let call := ApiCall.sendMessage sys1.client.currentUser selectedUser
      encryptedContent messageHash
  match sendMessageRoute sys1.server
      { id := msgId, sender := sys1.client.currentUser, receiver := selectedUser,
        encryptedContent := encryptedContent, messageHash := messageHash,
        timestamp := now } with
  | none => ([], sys1, calls1 ++ [call])
  | some server2 =>
      let sys2 := { sys1 with server := server2 }
      let (ds, sys3, calls2) := fetchMessages P sys2 selectedUser
      (ds, sys3, calls1 ++ [call] ++ calls2)

/-- `initializeKeys` (`Chat.tsx` lines 60-77): generate the RSA key pair
(`publicKey`/`privateKey` stand for the generated pair), keep both in
in-memory refs, and publish only the public key string to the Directory
Service.  A failed publish is caught and only sets an error banner. -/
def initializeKeys (sys : Sys) (publicKey privateKey : String) : Sys × List ApiCall :=
  let cs := { sys.client with
    privateKeyRef := some privateKey, publicKeyRef := publicKey }
  match storePublicKeyRoute sys.server sys.client.currentUser publicKey with
  | none => ({ sys with client := cs },
             [ApiCall.storePublicKey sys.client.currentUser publicKey])
  | some server' => ({ client := cs, server := server' },
                     [ApiCall.storePublicKey sys.client.currentUser publicKey])

/-- `fetchUsers` (`Chat.tsx` lines 80-87): list the reachable users,
excluding the caller. -/
def fetchUsers (sys : Sys) : List String × List ApiCall :=
  (listUsersRoute sys.server (some sys.client.currentUser),
   [ApiCall.getUsers sys.client.currentUser])

/-- Unmounting the `Chat` component (switching the App view away from
`'chat'`): the component-held refs — the RSA key pair and the AES key
cache — are dropped. -/
def unmountChat (cs : ClientState) : ClientState :=
  { cs with privateKeyRef := none, publicKeyRef := "", aesKeysRef := [] }

/-- `handleLogout` of `src/UI/src/App.tsx` (lines 32-42): clear the
saved `currentUser` item, remove every localStorage entry whose key
starts with `sessionKey_`, and switch to the login view (unmounting
`Chat`).  No Directory Service call is made. -/
def appHandleLogout (sys : Sys) : Sys × List ApiCall :=
  let ls1 := removeEntry sys.client.localStorage "currentUser"
  let ls2 := ls1.filter (fun p => !(p.1.startsWith "sessionKey_"))
  ({ sys with client := { unmountChat sys.client with localStorage := ls2 } }, [])

/-- `handleLogout` of the App variant `src/unnamed/part_003` (lines
33-55): delete the published public key from the Directory Service
(errors swallowed), clear the saved `currentUser` item, clear
`sessionStorage`, keep the conversation keys in localStorage, and
switch to the login view (unmounting `Chat`). -/
def part003HandleLogout (sys : Sys) : Sys × List ApiCall :=
  let server' := deletePublicKeyRoute sys.server sys.client.currentUser
  let ls1 := removeEntry sys.client.localStorage "currentUser"
  ({ client := { unmountChat sys.client with
       localStorage := ls1, sessionStorage := [] },
     server := server' },
   [ApiCall.deletePublicKey sys.client.currentUser])

/-- A concrete instantiation of the abstract platform-crypto parameters,
used to evaluate the model on closed inputs: the toy cipher keeps the
plaintext as the ciphertext, so its decryption law holds literally. -/
def toyPrims : CryptoPrims where
  sha := fun s => "#" ++ s
  aesEnc := fun _ _ p => p
  aesDec := fun c _ _ => some c
  rsaEnc := fun data pub => "rsa(" ++ data ++ "," ++ pub ++ ")"

/-- A client tab freshly logged in as `u`, with the given localStorage. -/
def mkClient (u : String) (ls : List (String × String)) : ClientState :=
  { currentUser := u, privateKeyRef := some "PRIV", publicKeyRef := "PUB",
    aesKeysRef := [], localStorage := ls, sessionStorage := [] }

/-- Directory Service state for the happy-path scenarios: `alice` and
`bob` registered, only `bob` with a published public key, no directed
records and no messages. -/
def serverAliceBob : ServerState :=
  { users := ["alice", "bob"], publicKeys := [("bob", "PKbob")],
    sessionKeys := [], messages := [] }

/-- A client state with its in-memory private-key ref replaced; used to
state that operations neither read nor leak `privateKeyRef`. -/
def setPrivClient (cs : ClientState) (p : Option String) : ClientState :=
  { cs with privateKeyRef := p }

/-- A system with the client's in-memory private-key ref replaced. -/
def setPriv (sys : Sys) (p : Option String) : Sys :=
  { sys with client := setPrivClient sys.client p }

/-- System state for the logout scenarios: alice logged in with a saved
session and one stored session key, both alice and bob published. -/
def sysLogout : Sys :=
  { client := mkClient "alice"
      [("currentUser", "alice"), (sessionKeyName "alice" "bob", "K")],
    server := { users := ["alice", "bob"],
                publicKeys := [("alice", "PKalice"), ("bob", "PKbob")],
                sessionKeys := [], messages := [] } }

/-! ## Association-list lemmas -/

theorem lookupEntry_updateEntry_self {α : Type} (m : List (String × α))
    (k : String) (v : α) : lookupEntry (updateEntry m k v) k = some v := by
  induction m with
  | nil => simp [lookupEntry, updateEntry]
  | cons p rest ih =>
      by_cases h : p.1 = k
      · simp [updateEntry, lookupEntry, h]
      · simp [updateEntry, lookupEntry, h, ih]

theorem lookupEntry_updateEntry_ne {α : Type} (m : List (String × α))
    (k k' : String) (v : α) (h : k ≠ k') :
    lookupEntry (updateEntry m k v) k' = lookupEntry m k' := by
  have h' : ¬ (k' = k) := fun hk => h hk.symm
  induction m with
  | nil => simp [lookupEntry, updateEntry, h]
  | cons p rest ih =>
      by_cases hp : p.1 = k
      · simp [updateEntry, lookupEntry, hp, h, h', ih]
      · by_cases hp' : p.1 = k'
        · simp [updateEntry, lookupEntry, hp, hp', h']
        · simp [updateEntry, lookupEntry, hp, hp', ih]

/-! ## JavaScript split lemmas -/

theorem splitAux_of_not_mem (sep : Char) (l : List Char) (h : sep ∉ l) :
    splitAux sep l = (l, []) := by
  revert h
  induction l with
  | nil => intro h; simp [splitAux]
  | cons c cs ih =>
      intro h
      simp only [List.mem_cons, not_or] at h
      simp [splitAux, ih h.2, Ne.symm h.1]

theorem splitAux_append (sep : Char) (a b : List Char) (h : sep ∉ a) :
    splitAux sep (a ++ sep :: b) =
      (a, (splitAux sep b).1 :: (splitAux sep b).2) := by
  revert h
  induction a with
  | nil => intro h; simp [splitAux]
  | cons c cs ih =>
      intro h
      simp only [List.mem_cons, not_or] at h
      simp [splitAux, ih h.2, Ne.symm h.1]

theorem not_mem_splitAux (sep : Char) (l : List Char) :
    sep ∉ (splitAux sep l).1 ∧ ∀ l' ∈ (splitAux sep l).2, sep ∉ l' := by
  induction l with
  | nil => simp [splitAux]
  | cons c cs ih =>
      by_cases hc : c = sep
      · simp only [splitAux, hc, if_pos rfl]
        refine ⟨by simp, ?_⟩
        intro l' hl'
        rcases List.mem_cons.mp hl' with h | h
        · exact h ▸ ih.1
        · exact ih.2 l' h
      · simp only [splitAux, if_neg hc]
        refine ⟨?_, ih.2⟩
        intro hmem
        rcases List.mem_cons.mp hmem with h | h
        · exact hc h.symm
        · exact ih.1 h

theorem jsSplit_two (a b : String) (ha : NoColon a) (hb : NoColon b) :
    jsSplit (a ++ ":" ++ b) ':' = [a, b] := by
  have hdata : (a ++ ":" ++ b).data = a.data ++ ':' :: b.data := by
    have hcolon : (":" : String).data = [':'] := rfl
    simp [String.data_append, hcolon, List.append_assoc]
  unfold jsSplit
  rw [hdata, splitAux_append ':' a.data b.data ha,
      splitAux_of_not_mem ':' b.data hb]
  simp

theorem noColon_of_mem_jsSplit (s s' : String) (h : s' ∈ jsSplit s ':') :
    NoColon s' := by
  unfold jsSplit at h
  rcases List.mem_map.mp h with ⟨l, hl, hs⟩
  unfold NoColon
  rw [← hs]
  rcases List.mem_cons.mp hl with h1 | h1
  · exact h1 ▸ (not_mem_splitAux ':' s.data).1
  · exact (not_mem_splitAux ':' s.data).2 l h1

/-! ## C1: happy-path convergence -/

/-- C1 counterexample: with A = alice (no prior key state), B = bob
(published public key `PKbob`, no prior directed record),
`getOrCreateSessionKey` leaves the Directory Service's directed-record
store empty — no record `(alice→bob)` is published, the only network
call is the public-key fetch — and a second browser for bob (its own
empty localStorage) then generates a different key instead of
recovering alice's key bytes, so the claimed convergence fails. -/
theorem c1_obtain_publishes_counterexample :
    (getOrCreateSessionKey toyPrims (AESKey.mk "KEY")
      { client := mkClient "alice" [], server := serverAliceBob } "bob").2.1.server.sessionKeys = [] ∧
    (getOrCreateSessionKey toyPrims (AESKey.mk "KEY")
      { client := mkClient "alice" [], server := serverAliceBob } "bob").2.2 =
        [ApiCall.getPublicKey "bob"] ∧
    (getOrCreateSessionKey toyPrims (AESKey.mk "KEY2")
      { client := mkClient "bob" [],
        server := (getOrCreateSessionKey toyPrims (AESKey.mk "KEY")
          { client := mkClient "alice" [], server := serverAliceBob } "bob").2.1.server }
      "alice").1 ≠ AESKey.mk "KEY" := by
  decide

/-- C1 amended: when A has no cached or locally stored key for B and B
has a published public key, A's `getOrCreateSessionKey(B)` returns the
freshly generated key, publishes nothing to the Directory Service (the
only call is the public-key fetch, and the server state is unchanged),
stores the key locally under the forward-named localStorage entry
`sessionKey_A_B`, stores the plaintext exported key bytes under the
reverse-named entry `sessionKey_B_A`, and B recovers exactly those key
bytes only when B's tab shares the same localStorage (same browser). -/
theorem c1_obtain_local_convergence (P : CryptoPrims) (fresh : AESKey) (sys : Sys)
    (peer pk : String)
    (hcache : lookupEntry sys.client.aesKeysRef peer = none)
    (hls : lookupEntry sys.client.localStorage
      (sessionKeyName sys.client.currentUser peer) = none)
    (hpub : getPublicKeyRoute sys.server peer = some pk) :
    (getOrCreateSessionKey P fresh sys peer).1 = fresh ∧
    (getOrCreateSessionKey P fresh sys peer).2.1.server = sys.server ∧
    (getOrCreateSessionKey P fresh sys peer).2.2 = [ApiCall.getPublicKey peer] ∧
    lookupEntry (getOrCreateSessionKey P fresh sys peer).2.1.client.localStorage
      (sessionKeyName sys.client.currentUser peer) = some fresh.raw ∧
    lookupEntry (getOrCreateSessionKey P fresh sys peer).2.1.client.localStorage
      (sessionKeyName peer sys.client.currentUser) = some fresh.raw ∧
    (∀ (P' : CryptoPrims) (fresh' : AESKey) (priv : Option String)
        (pub : String) (st : List (String × String)) (sv : ServerState),
      (getOrCreateSessionKey P' fresh'
        { client := { currentUser := peer, privateKeyRef := priv,
                      publicKeyRef := pub, aesKeysRef := [],
                      localStorage := (getOrCreateSessionKey P fresh sys peer).2.1.client.localStorage,
                      sessionStorage := st },
          server := sv } sys.client.currentUser).1 = fresh) := by
  simp only [getOrCreateSessionKey, exchangeSessionKey, hcache, hls, hpub]
  refine ⟨by trivial, by trivial, by trivial, ?_, ?_, ?_⟩
  · by_cases hname : sessionKeyName peer sys.client.currentUser =
        sessionKeyName sys.client.currentUser peer
    · rw [hname, lookupEntry_updateEntry_self]
    · rw [lookupEntry_updateEntry_ne _ _ _ _ hname, lookupEntry_updateEntry_self]
  · exact lookupEntry_updateEntry_self _ _ _
  · intro P' fresh' priv pub st sv
    simp only [getOrCreateSessionKey, lookupEntry, lookupEntry_updateEntry_self]

/-- Closed instance of the C1 amended theorem at the alice/bob scenario. -/
theorem c1_obtain_local_convergence_witness :
    (getOrCreateSessionKey toyPrims (AESKey.mk "KEY")
      { client := mkClient "alice" [], server := serverAliceBob } "bob").1 = AESKey.mk "KEY" ∧
    (getOrCreateSessionKey toyPrims (AESKey.mk "KEY")
      { client := mkClient "alice" [], server := serverAliceBob } "bob").2.1.server = serverAliceBob ∧
    lookupEntry (getOrCreateSessionKey toyPrims (AESKey.mk "KEY")
      { client := mkClient "alice" [], server := serverAliceBob } "bob").2.1.client.localStorage
      (sessionKeyName "alice" "bob") = some "KEY" := by
  have h := c1_obtain_local_convergence toyPrims (AESKey.mk "KEY")
    { client := mkClient "alice" [], server := serverAliceBob } "bob" "PKbob"
    (by decide) (by decide) (by decide)
  exact ⟨h.1, h.2.1, h.2.2.2.1⟩

/-! ## C2: directed-record lookup before generating -/

/-- C2 counterexample: a directed record addressed to alice as receiver
exists on the Directory Service (`("bob","alice","ENC")`, found by the
`GET /session-key` route), alice has no cached or stored key, yet
`getOrCreateSessionKey` issues no `getSessionKey` query (the only call
is the public-key fetch) and returns a freshly generated key instead of
decrypting and importing the record. -/
theorem c2_no_directory_query_counterexample :
    getSessionKeyRoute { serverAliceBob with sessionKeys := [("bob", "alice", "ENC")] }
      "alice" "bob" = some ("bob", "alice", "ENC") ∧
    (getOrCreateSessionKey toyPrims (AESKey.mk "KEY")
      { client := mkClient "alice" [],
        server := { serverAliceBob with sessionKeys := [("bob", "alice", "ENC")] } }
      "bob").1 = AESKey.mk "KEY" ∧
    (getOrCreateSessionKey toyPrims (AESKey.mk "KEY")
      { client := mkClient "alice" [],
        server := { serverAliceBob with sessionKeys := [("bob", "alice", "ENC")] } }
      "bob").2.2 = [ApiCall.getPublicKey "bob"] := by
  decide

/-- C2 amended: when no session key for the peer is cached and none is
in localStorage under `sessionKey_<currentUser>_<peer>`, the Coordinator
never queries the Directory Service for a directed record: it
immediately generates a fresh key and returns it; the only network call
on any path is the public-key fetch inside `exchangeSessionKey`, and the
server's directed-record store is left unchanged. -/
theorem c2_generates_without_query (P : CryptoPrims) (fresh : AESKey) (sys : Sys)
    (peer : String)
    (hcache : lookupEntry sys.client.aesKeysRef peer = none)
    (hls : lookupEntry sys.client.localStorage
      (sessionKeyName sys.client.currentUser peer) = none) :
    (getOrCreateSessionKey P fresh sys peer).1 = fresh ∧
    (getOrCreateSessionKey P fresh sys peer).2.2 = [ApiCall.getPublicKey peer] ∧
    (getOrCreateSessionKey P fresh sys peer).2.1.server.sessionKeys =
      sys.server.sessionKeys := by
  simp only [getOrCreateSessionKey, exchangeSessionKey, hcache, hls]
  cases hpub : getPublicKeyRoute sys.server peer with
  | none => refine ⟨?_, ?_, ?_⟩ <;> trivial
  | some pk => refine ⟨?_, ?_, ?_⟩ <;> trivial

/-- Closed instance of the C2 amended theorem. -/
theorem c2_generates_without_query_witness :
    (getOrCreateSessionKey toyPrims (AESKey.mk "KEY")
      { client := mkClient "alice" [],
        server := { serverAliceBob with sessionKeys := [("bob", "alice", "ENC")] } }
      "bob").2.2 = [ApiCall.getPublicKey "bob"] :=
  (c2_generates_without_query toyPrims (AESKey.mk "KEY")
    { client := mkClient "alice" [],
      server := { serverAliceBob with sessionKeys := [("bob", "alice", "ENC")] } }
    "bob" (by decide) (by decide)).2.1

/-! ## C3: unreachable peer -/

/-- C3 counterexample: bob has no published public key, no local and no
directed key record exists, yet `getOrCreateSessionKey` does not fail:
it returns the freshly generated key, caches and persists it, and the
public-key fetch failure inside `exchangeSessionKey` is swallowed. -/
theorem c3_no_peer_unreachable_counterexample :
    getPublicKeyRoute
      { users := ["alice", "bob"], publicKeys := [], sessionKeys := [], messages := [] }
      "bob" = none ∧
    (getOrCreateSessionKey toyPrims (AESKey.mk "KEY")
      { client := mkClient "alice" [],
        server := { users := ["alice", "bob"], publicKeys := [],
                    sessionKeys := [], messages := [] } } "bob").1 = AESKey.mk "KEY" ∧
    lookupEntry (getOrCreateSessionKey toyPrims (AESKey.mk "KEY")
      { client := mkClient "alice" [],
        server := { users := ["alice", "bob"], publicKeys := [],
                    sessionKeys := [], messages := [] } } "bob").2.1.client.localStorage
      (sessionKeyName "alice" "bob") = some "KEY" := by
  decide

/-- C3 amended: `getOrCreateSessionKey` never fails with
`PeerUnreachable`: when the peer has no published public key (and no
cached or stored key exists), the 404 from the public-key fetch is
caught and logged inside `exchangeSessionKey`; the freshly generated key
is cached, persisted under `sessionKey_<currentUser>_<peer>`, and
returned, with no reverse-named entry written and the server state
unchanged. -/
theorem c3_unreachable_peer_swallowed (P : CryptoPrims) (fresh : AESKey) (sys : Sys)
    (peer : String)
    (hcache : lookupEntry sys.client.aesKeysRef peer = none)
    (hls : lookupEntry sys.client.localStorage
      (sessionKeyName sys.client.currentUser peer) = none)
    (hpub : getPublicKeyRoute sys.server peer = none) :
    (getOrCreateSessionKey P fresh sys peer).1 = fresh ∧
    (getOrCreateSessionKey P fresh sys peer).2.2 = [ApiCall.getPublicKey peer] ∧
    (getOrCreateSessionKey P fresh sys peer).2.1.server = sys.server ∧
    (getOrCreateSessionKey P fresh sys peer).2.1.client.localStorage =
      updateEntry sys.client.localStorage
        (sessionKeyName sys.client.currentUser peer) fresh.raw ∧
    (getOrCreateSessionKey P fresh sys peer).2.1.client.aesKeysRef =
      updateEntry sys.client.aesKeysRef peer fresh := by
  simp only [getOrCreateSessionKey, exchangeSessionKey, hcache, hls, hpub]
  refine ⟨?_, ?_, ?_, ?_, ?_⟩ <;> trivial

/-- Closed instance of the C3 amended theorem. -/
theorem c3_unreachable_peer_swallowed_witness :
    (getOrCreateSessionKey toyPrims (AESKey.mk "KEY")
      { client := mkClient "alice" [],
        server := { users := ["alice", "bob"], publicKeys := [],
                    sessionKeys := [], messages := [] } } "bob").1 = AESKey.mk "KEY" :=
  (c3_unreachable_peer_swallowed toyPrims (AESKey.mk "KEY")
    { client := mkClient "alice" [],
      server := { users := ["alice", "bob"], publicKeys := [],
                  sessionKeys := [], messages := [] } }
    "bob" (by decide) (by decide) (by decide)).1

/-! ## C4: seal/open round trip -/

/-- C4: sealing a plaintext (digest = SHA-256, envelope =
ciphertext `:` iv) and opening the result with the same digest and the
same session key returns the plaintext with `verified = true`.  The
hypotheses are the AES-GCM decryption law at this instance and the fact
that base64 output (`btoa`) never contains the `':'` delimiter. -/
theorem c4_seal_open_roundtrip (P : CryptoPrims) (cs : ClientState) (k : AESKey)
    (iv p i s r : String) (t : Nat)
    (hgcm : P.aesDec (P.aesEnc k.raw iv p) iv k.raw = some p)
    (hct : NoColon (P.aesEnc k.raw iv p)) (hiv : NoColon iv)
    (hkey : lookupEntry cs.aesKeysRef (if r == cs.currentUser then s else r) = some k) :
    decryptMessage P cs
      { id := i, sender := s, receiver := r,
        encryptedContent := (sealMessage P k iv p).2,
        messageHash := (sealMessage P k iv p).1, timestamp := t } =
      (.ok { id := i, sender := s, receiver := r, content := p,
             timestamp := t, verified := true }, cs) := by
  simp only [decryptMessage, resolveSessionKey, sealMessage, openEnvelope, hkey]
  rw [jsSplit_two (P.aesEnc k.raw iv p) iv hct hiv]
  simp [hgcm]

/-- Closed instance of the C4 round-trip theorem with the toy cipher. -/
theorem c4_seal_open_roundtrip_witness :
    decryptMessage toyPrims
      { currentUser := "alice", privateKeyRef := some "PRIV", publicKeyRef := "PUB",
        aesKeysRef := [("bob", AESKey.mk "K")], localStorage := [], sessionStorage := [] }
      { id := "1", sender := "bob", receiver := "alice",
        encryptedContent := (sealMessage toyPrims (AESKey.mk "K") "IV" "hello").2,
        messageHash := (sealMessage toyPrims (AESKey.mk "K") "IV" "hello").1,
        timestamp := 0 } =
      (.ok { id := "1", sender := "bob", receiver := "alice", content := "hello",
             timestamp := 0, verified := true },
       { currentUser := "alice", privateKeyRef := some "PRIV", publicKeyRef := "PUB",
         aesKeysRef := [("bob", AESKey.mk "K")], localStorage := [],
         sessionStorage := [] }) :=
  c4_seal_open_roundtrip toyPrims
    { currentUser := "alice", privateKeyRef := some "PRIV", publicKeyRef := "PUB",
      aesKeysRef := [("bob", AESKey.mk "K")], localStorage := [], sessionStorage := [] }
    (AESKey.mk "K") "IV" "hello" "1" "bob" "alice" 0
    (by decide) (by decide) (by decide) (by decide)

/-! ## C5: demo key exchange keeps the key local -/

/-- C5: `exchangeSessionKey(peer, k)` never transmits the session key to
the Directory Service — its only network call is the public-key fetch,
the server state is unchanged, and the RSA encryption result is
discarded (the outcome is identical under any `rsaEnc`); the plaintext
export of `k` is written to localStorage under the reverse-named entry
`sessionKey_<peer>_<currentUser>`, and when no key is cached and no
forward-named entry exists, `decryptMessage`'s key resolution falls
back to exactly that entry. -/
theorem c5_exchange_discards_rsa_stores_reverse (P : CryptoPrims)
    (f : String → String → String) (sys : Sys) (peer pk : String) (k : AESKey)
    (hpub : getPublicKeyRoute sys.server peer = some pk) :
    (exchangeSessionKey P sys peer k).2 = [ApiCall.getPublicKey peer] ∧
    exchangeSessionKey { P with rsaEnc := f } sys peer k =
      exchangeSessionKey P sys peer k ∧
    (exchangeSessionKey P sys peer k).1.server = sys.server ∧
    lookupEntry (exchangeSessionKey P sys peer k).1.client.localStorage
      (sessionKeyName peer sys.client.currentUser) = some k.raw ∧
    (∀ cs' : ClientState,
      cs'.currentUser = sys.client.currentUser →
      cs'.localStorage = (exchangeSessionKey P sys peer k).1.client.localStorage →
      lookupEntry cs'.aesKeysRef peer = none →
      lookupEntry cs'.localStorage (sessionKeyName cs'.currentUser peer) = none →
      resolveSessionKey cs' peer =
        .ok (AESKey.mk k.raw,
             { cs' with aesKeysRef := updateEntry cs'.aesKeysRef peer (AESKey.mk k.raw) })) := by
  refine ⟨?_, ?_, ?_, ?_, ?_⟩
  · simp only [exchangeSessionKey, hpub]
  · rfl
  · simp only [exchangeSessionKey, hpub]
  · simp only [exchangeSessionKey, hpub]
    exact lookupEntry_updateEntry_self _ _ _
  · intro cs' h1 h2 h3 h4
    simp only [exchangeSessionKey, hpub] at h2
    rw [h1, h2] at h4
    simp only [resolveSessionKey, h3, h4, h1, h2,
      lookupEntry_updateEntry_self]

/-- Closed instance of the C5 theorem in the alice/bob scenario,
including the fallback resolution from the reverse-named entry. -/
theorem c5_exchange_discards_rsa_stores_reverse_witness :
    (exchangeSessionKey toyPrims
      { client := mkClient "alice" [], server := serverAliceBob } "bob"
      (AESKey.mk "K")).2 = [ApiCall.getPublicKey "bob"] ∧
    lookupEntry (exchangeSessionKey toyPrims
      { client := mkClient "alice" [], server := serverAliceBob } "bob"
      (AESKey.mk "K")).1.client.localStorage
      (sessionKeyName "bob" "alice") = some "K" ∧
    resolveSessionKey (mkClient "alice" [(sessionKeyName "bob" "alice", "K")]) "bob" =
      .ok (AESKey.mk "K",
           { mkClient "alice" [(sessionKeyName "bob" "alice", "K")] with
             aesKeysRef := [("bob", AESKey.mk "K")] }) := by
  have h := c5_exchange_discards_rsa_stores_reverse toyPrims (fun _ _ => "X")
    { client := mkClient "alice" [], server := serverAliceBob } "bob" "PKbob"
    (AESKey.mk "K") (by decide)
  refine ⟨h.1, h.2.2.2.1, ?_⟩
  have h5 := h.2.2.2.2 (mkClient "alice" [(sessionKeyName "bob" "alice", "K")])
    rfl (by decide) (by decide) (by decide)
  exact h5

/-! ## Rewriting helpers for `decryptMessage` and `openEnvelope` -/

theorem decryptMessage_resolve_error (P : CryptoPrims) (cs : ClientState)
    (msg : StoredMessage) (e : DecErr)
    (hres : resolveSessionKey cs
      (if msg.receiver == cs.currentUser then msg.sender else msg.receiver) =
        .error e) :
    decryptMessage P cs msg = (.error e, cs) := by
  simp only [decryptMessage]
  rw [hres]

theorem decryptMessage_resolve_ok (P : CryptoPrims) (cs : ClientState)
    (msg : StoredMessage) (key : AESKey) (cs2 : ClientState)
    (hres : resolveSessionKey cs
      (if msg.receiver == cs.currentUser then msg.sender else msg.receiver) =
        .ok (key, cs2)) :
    decryptMessage P cs msg =
      match openEnvelope P key msg.encryptedContent msg.messageHash with
      | .error e => (.error e, cs2)
      | .ok (content, verified) =>
          (.ok { id := msg.id, sender := msg.sender, receiver := msg.receiver,
                 content := content, timestamp := msg.timestamp,
                 verified := verified }, cs2) := by
  simp only [decryptMessage]
  rw [hres]

theorem openEnvelope_no_iv (P : CryptoPrims) (key : AESKey) (env d : String)
    (hp : (jsSplit env ':')[1]? = none) :
    openEnvelope P key env d = .error .malformedEnvelope := by
  simp only [openEnvelope, hp]

theorem openEnvelope_some_iv (P : CryptoPrims) (key : AESKey) (env d iv : String)
    (hp : (jsSplit env ':')[1]? = some iv) :
    openEnvelope P key env d =
      match P.aesDec ((jsSplit env ':').headD "") iv key.raw with
      | none => .error .decryptionFailed
      | some content => .ok (content, P.sha content == d) := by
  simp only [openEnvelope, hp]

/-! ## C7: digest-independent decrypt -/

/-- C7: whenever `decryptMessage` succeeds, the returned `verified` flag
is exactly the comparison of the SHA-256 of the decrypted plaintext with
the stored digest; replacing the stored digest with any other value
still succeeds with the same plaintext (a digest mismatch is not an
error) and `verified` recomputed against the new digest. -/
theorem c7_digest_independent_decrypt (P : CryptoPrims) (cs : ClientState)
    (msg : StoredMessage) (dm : DecryptedMessage)
    (h : (decryptMessage P cs msg).1 = .ok dm) :
    dm.verified = (P.sha dm.content == msg.messageHash) ∧
    ∀ d', (decryptMessage P cs { msg with messageHash := d' }).1 =
      .ok { dm with verified := P.sha dm.content == d' } := by
  cases hres : resolveSessionKey cs
      (if msg.receiver == cs.currentUser then msg.sender else msg.receiver) with
  | error e =>
      rw [decryptMessage_resolve_error P cs msg e hres] at h
      simp at h
  | ok kp =>
      rcases kp with ⟨key, cs2⟩
      rw [decryptMessage_resolve_ok P cs msg key cs2 hres] at h
      cases hp : (jsSplit msg.encryptedContent ':')[1]? with
      | none =>
          rw [openEnvelope_no_iv P key _ _ hp] at h
          simp at h
      | some iv =>
          rw [openEnvelope_some_iv P key _ _ iv hp] at h
          cases hd : P.aesDec ((jsSplit msg.encryptedContent ':').headD "") iv key.raw with
          | none =>
              rw [hd] at h
              simp at h
          | some content =>
              rw [hd] at h
              dsimp only at h
              have hdm : ({ id := msg.id, sender := msg.sender, receiver := msg.receiver,
                            content := content, timestamp := msg.timestamp,
                            verified := P.sha content == msg.messageHash } :
                  DecryptedMessage) = dm := by
                exact Except.ok.inj h
              subst hdm
              refine ⟨rfl, ?_⟩
              intro d'
              have hres' : resolveSessionKey cs
                  (if ({ msg with messageHash := d' } : StoredMessage).receiver ==
                      cs.currentUser
                   then ({ msg with messageHash := d' } : StoredMessage).sender
                   else ({ msg with messageHash := d' } : StoredMessage).receiver) =
                    .ok (key, cs2) := hres
              rw [decryptMessage_resolve_ok P cs _ key cs2 hres']
              have hp' : (jsSplit ({ msg with messageHash := d' } :
                  StoredMessage).encryptedContent ':')[1]? = some iv := hp
              rw [openEnvelope_some_iv P key _ _ iv hp']
              have hd' : P.aesDec
                  ((jsSplit ({ msg with messageHash := d'} :
                    StoredMessage).encryptedContent ':').headD "") iv key.raw =
                    some content := hd
              rw [hd']

/-- Closed instance of the C7 theorem: corrupting only the digest keeps
the plaintext and flips `verified` to `false`. -/
theorem c7_digest_independent_decrypt_witness :
    (decryptMessage toyPrims
      { currentUser := "alice", privateKeyRef := some "PRIV", publicKeyRef := "PUB",
        aesKeysRef := [("bob", AESKey.mk "K")], localStorage := [], sessionStorage := [] }
      { id := "1", sender := "bob", receiver := "alice", encryptedContent := "x:y",
        messageHash := "CORRUPT", timestamp := 0 }).1 =
      .ok { id := "1", sender := "bob", receiver := "alice", content := "x",
            timestamp := 0, verified := false } := by
  have h := c7_digest_independent_decrypt toyPrims
    { currentUser := "alice", privateKeyRef := some "PRIV", publicKeyRef := "PUB",
      aesKeysRef := [("bob", AESKey.mk "K")], localStorage := [], sessionStorage := [] }
    { id := "1", sender := "bob", receiver := "alice", encryptedContent := "x:y",
      messageHash := "#x", timestamp := 0 }
    { id := "1", sender := "bob", receiver := "alice", content := "x",
      timestamp := 0, verified := true }
    rfl
  have h2 := h.2 "CORRUPT"
  have hb : (toyPrims.sha "x" == "CORRUPT") = false := by decide
  rw [hb] at h2
  exact h2

/-! ## C8: malformed envelope -/

/-- C8 counterexample: the three-part envelope `"a:b:c"` does not have
exactly two `\':'`-separated parts, yet `openEnvelope` (the open side of
the codec inside `decryptMessage`) succeeds — the components beyond the
second are silently ignored instead of failing with
`MalformedEnvelope`. -/
theorem c8_three_part_envelope_counterexample :
    (jsSplit "a:b:c" ':').length = 3 ∧
    openEnvelope toyPrims (AESKey.mk "K") "a:b:c" "#a" = .ok ("a", true) ∧
    (decryptMessage toyPrims
      { currentUser := "alice", privateKeyRef := some "PRIV", publicKeyRef := "PUB",
        aesKeysRef := [("bob", AESKey.mk "K")], localStorage := [], sessionStorage := [] }
      { id := "1", sender := "bob", receiver := "alice", encryptedContent := "a:b:c",
        messageHash := "#a", timestamp := 0 }).1 =
      .ok { id := "1", sender := "bob", receiver := "alice", content := "a",
            timestamp := 0, verified := true } := by
  refine ⟨by decide, rfl, rfl⟩

/-- C8 amended: `open` splits the envelope at `':'` and uses only the
first two components: with fewer than two parts it fails (the missing
iv makes the decode reject), and with two or more parts its outcome is
exactly that of the two-part envelope formed by the first two
components — extra parts are ignored, not rejected. -/
theorem c8_open_uses_first_two_parts (P : CryptoPrims) (key : AESKey)
    (env d : String) :
    ((jsSplit env ':').length < 2 →
      openEnvelope P key env d = .error .malformedEnvelope) ∧
    (∀ c iv rest, jsSplit env ':' = c :: iv :: rest →
      openEnvelope P key env d = openEnvelope P key (c ++ ":" ++ iv) d) := by
  constructor
  · intro hlen
    cases hsp : jsSplit env ':' with
    | nil =>
        exact openEnvelope_no_iv P key env d (by rw [hsp]; rfl)
    | cons a as =>
        cases as with
        | nil =>
            exact openEnvelope_no_iv P key env d (by rw [hsp]; rfl)
        | cons b bs =>
            rw [hsp] at hlen
            exact absurd hlen (by simp)
  · intro c iv rest hsp
    have hc : NoColon c := noColon_of_mem_jsSplit env c (by rw [hsp]; simp)
    have hiv : NoColon iv := noColon_of_mem_jsSplit env iv (by rw [hsp]; simp)
    have hp1 : (jsSplit env ':')[1]? = some iv := by rw [hsp]; simp
    have hp2 : (jsSplit (c ++ ":" ++ iv) ':')[1]? = some iv := by
      rw [jsSplit_two c iv hc hiv]; simp
    rw [openEnvelope_some_iv P key env d iv hp1,
        openEnvelope_some_iv P key (c ++ ":" ++ iv) d iv hp2,
        hsp, jsSplit_two c iv hc hiv]
    simp only [List.headD_cons]

/-- Closed instance of the C8 amended theorem. -/
theorem c8_open_uses_first_two_parts_witness :
    openEnvelope toyPrims (AESKey.mk "K") "abc" "d" = .error .malformedEnvelope ∧
    openEnvelope toyPrims (AESKey.mk "K") "a:b:c" "d" =
      openEnvelope toyPrims (AESKey.mk "K") ("a" ++ ":" ++ "b") "d" :=
  ⟨(c8_open_uses_first_two_parts toyPrims (AESKey.mk "K") "abc" "d").1 (by decide),
   (c8_open_uses_first_two_parts toyPrims (AESKey.mk "K") "a:b:c" "d").2
     "a" "b" ["c"] (by decide)⟩

/-! ## C9: batch decrypt isolation -/

/-- C9: the batch decryption of `fetchMessages` is total — the result
list always has one entry per fetched message — and a per-message
decryption error is converted into the `[Decryption failed]` marker
(`verified = false`) while the remaining messages are still decrypted. -/
theorem c9_batch_error_isolation (P : CryptoPrims) (cs : ClientState)
    (msgs : List StoredMessage) (m : StoredMessage) (ms : List StoredMessage)
    (e : DecErr) :
    (batchDecrypt P cs msgs).1.length = msgs.length ∧
    ((decryptMessage P cs m).1 = .error e →
      (batchDecrypt P cs (m :: ms)).1 =
        failedMarker m :: (batchDecrypt P (decryptMessage P cs m).2 ms).1) := by
  constructor
  · induction msgs generalizing cs with
    | nil => rfl
    | cons x xs ih =>
        rcases hx : decryptMessage P cs x with ⟨r, cs2⟩
        simp only [batchDecrypt, hx, List.length_cons]
        cases r with
        | ok d => simpa using ih cs2
        | error e2 => simpa using ih cs2
  · intro h
    rcases hx : decryptMessage P cs m with ⟨r, cs2⟩
    rw [hx] at h
    dsimp only at h
    subst h
    simp only [batchDecrypt, hx]

/-- Closed instance of the C9 theorem: the first message has no session
key and becomes the failure marker; the second message still decrypts. -/
theorem c9_batch_error_isolation_witness :
    (decryptMessage toyPrims (mkClient "alice" [(sessionKeyName "carol" "alice", "K")])
      { id := "1", sender := "bob", receiver := "alice", encryptedContent := "x:y",
        messageHash := "#x", timestamp := 0 }).1 = .error DecErr.noSessionKey ∧
    (batchDecrypt toyPrims (mkClient "alice" [(sessionKeyName "carol" "alice", "K")])
      [{ id := "1", sender := "bob", receiver := "alice", encryptedContent := "x:y",
         messageHash := "#x", timestamp := 0 },
       { id := "2", sender := "carol", receiver := "alice", encryptedContent := "z:w",
         messageHash := "#z", timestamp := 1 }]).1 =
      failedMarker { id := "1", sender := "bob", receiver := "alice",
                     encryptedContent := "x:y", messageHash := "#x", timestamp := 0 } ::
        (batchDecrypt toyPrims
          (decryptMessage toyPrims (mkClient "alice" [(sessionKeyName "carol" "alice", "K")])
            { id := "1", sender := "bob", receiver := "alice", encryptedContent := "x:y",
              messageHash := "#x", timestamp := 0 }).2
          [{ id := "2", sender := "carol", receiver := "alice", encryptedContent := "z:w",
             messageHash := "#z", timestamp := 1 }]).1 := by
  refine ⟨rfl, ?_⟩
  exact (c9_batch_error_isolation toyPrims
    (mkClient "alice" [(sessionKeyName "carol" "alice", "K")]) []
    { id := "1", sender := "bob", receiver := "alice", encryptedContent := "x:y",
      messageHash := "#x", timestamp := 0 }
    [{ id := "2", sender := "carol", receiver := "alice", encryptedContent := "z:w",
       messageHash := "#z", timestamp := 1 }]
    DecErr.noSessionKey).2 rfl

/-! ## Private-key non-interference helpers (for C6)

Each client operation's entire observable outcome — returned values,
network calls, server state, localStorage — is the same function of the
state no matter what `privateKeyRef` holds, because the Chat component
never reads the ref after storing it. -/

theorem resolveSessionKey_setPriv (cs : ClientState) (p q : Option String)
    (other : String) :
    resolveSessionKey (setPrivClient cs p) other =
      match resolveSessionKey (setPrivClient cs q) other with
      | .error e => .error e
      | .ok (k, cs') => .ok (k, setPrivClient cs' p) := by
  rcases cs with ⟨cu, pr, pk, cache, ls, ss⟩
  simp only [resolveSessionKey, setPrivClient]
  cases h1 : lookupEntry cache other with
  | some k => simp [h1]
  | none =>
      cases h2 : lookupEntry ls (sessionKeyName cu other) with
      | some sk => simp [h1, h2]
      | none =>
          cases h3 : lookupEntry ls (sessionKeyName other cu) with
          | some rk => simp [h1, h2, h3]
          | none => simp [h1, h2, h3]

theorem decryptMessage_setPriv (P : CryptoPrims) (cs : ClientState)
    (p q : Option String) (msg : StoredMessage) :
    decryptMessage P (setPrivClient cs p) msg =
      ((decryptMessage P (setPrivClient cs q) msg).1,
       setPrivClient (decryptMessage P (setPrivClient cs q) msg).2 p) := by
  rcases cs with ⟨cu, pr, pk, cache, ls, ss⟩
  have hres := resolveSessionKey_setPriv ⟨cu, pr, pk, cache, ls, ss⟩ p q
      (if msg.receiver == cu then msg.sender else msg.receiver)
  simp only [setPrivClient] at hres ⊢
  simp only [decryptMessage]
  rw [hres]
  cases hq : resolveSessionKey
      { currentUser := cu, privateKeyRef := q, publicKeyRef := pk,
        aesKeysRef := cache, localStorage := ls, sessionStorage := ss }
      (if msg.receiver == cu then msg.sender else msg.receiver) with
  | error e => simp
  | ok kc =>
      rcases kc with ⟨k, cs'⟩
      cases ho : openEnvelope P k msg.encryptedContent msg.messageHash with
      | error e => simp [ho, setPrivClient]
      | ok cv =>
          rcases cv with ⟨content, verified⟩
          simp [ho, setPrivClient]

theorem batchDecrypt_setPriv (P : CryptoPrims) (cs : ClientState)
    (p q : Option String) (msgs : List StoredMessage) :
    batchDecrypt P (setPrivClient cs p) msgs =
      ((batchDecrypt P (setPrivClient cs q) msgs).1,
       setPrivClient (batchDecrypt P (setPrivClient cs q) msgs).2 p) := by
  induction msgs generalizing cs with
  | nil => simp [batchDecrypt, setPrivClient]
  | cons m ms ih =>
      have hd := decryptMessage_setPriv P cs p q m
      rcases hq : decryptMessage P (setPrivClient cs q) m with ⟨r, cs2⟩
      rw [hq] at hd
      have hfix : cs2 = setPrivClient cs2 q := by
        have h2 := decryptMessage_setPriv P cs q q m
        rw [hq] at h2
        exact congrArg Prod.snd h2
      have ih2 := ih cs2
      rw [← hfix] at ih2
      simp only [batchDecrypt, hd, hq]
      rw [ih2]

theorem exchangeSessionKey_setPriv (P : CryptoPrims) (sys : Sys)
    (p q : Option String) (peer : String) (k : AESKey) :
    exchangeSessionKey P (setPriv sys p) peer k =
      (setPriv (exchangeSessionKey P (setPriv sys q) peer k).1 p,
       (exchangeSessionKey P (setPriv sys q) peer k).2) := by
  rcases sys with ⟨⟨cu, pr, pk, cache, ls, ss⟩, server⟩
  cases h : getPublicKeyRoute server peer <;>
    simp [exchangeSessionKey, setPriv, setPrivClient, h]

theorem getOrCreateSessionKey_setPriv (P : CryptoPrims) (fresh : AESKey)
    (sys : Sys) (p q : Option String) (peer : String) :
    getOrCreateSessionKey P fresh (setPriv sys p) peer =
      ((getOrCreateSessionKey P fresh (setPriv sys q) peer).1,
       setPriv (getOrCreateSessionKey P fresh (setPriv sys q) peer).2.1 p,
       (getOrCreateSessionKey P fresh (setPriv sys q) peer).2.2) := by
  rcases sys with ⟨⟨cu, pr, pk, cache, ls, ss⟩, server⟩
  simp only [setPriv, setPrivClient]
  cases h1 : lookupEntry cache peer with
  | some k0 => simp [getOrCreateSessionKey, h1]
  | none =>
      cases h2 : lookupEntry ls (sessionKeyName cu peer) with
      | some sk => simp [getOrCreateSessionKey, h1, h2, setPriv, setPrivClient]
      | none =>
          have hx := exchangeSessionKey_setPriv P
            { client := { currentUser := cu, privateKeyRef := pr, publicKeyRef := pk,
                          aesKeysRef := updateEntry cache peer fresh,
                          localStorage := updateEntry ls (sessionKeyName cu peer) fresh.raw,
                          sessionStorage := ss },
              server := server } p q peer fresh
          simp only [setPriv, setPrivClient] at hx
          rcases hq : exchangeSessionKey P
            { client := { currentUser := cu, privateKeyRef := q, publicKeyRef := pk,
                          aesKeysRef := updateEntry cache peer fresh,
                          localStorage := updateEntry ls (sessionKeyName cu peer) fresh.raw,
                          sessionStorage := ss },
              server := server } peer fresh with ⟨s2, calls2⟩
          rw [hq] at hx
          simp [getOrCreateSessionKey, h1, h2, hx, hq]

theorem fetchMessages_setPriv (P : CryptoPrims) (sys : Sys)
    (p q : Option String) (sel : String) :
    fetchMessages P (setPriv sys p) sel =
      ((fetchMessages P (setPriv sys q) sel).1,
       setPriv (fetchMessages P (setPriv sys q) sel).2.1 p,
       (fetchMessages P (setPriv sys q) sel).2.2) := by
  rcases sys with ⟨⟨cu, pr, pk, cache, ls, ss⟩, server⟩
  have hb := batchDecrypt_setPriv P ⟨cu, pr, pk, cache, ls, ss⟩ p q
    (getMessagesRoute server cu sel)
  simp only [setPrivClient] at hb
  rcases hq : batchDecrypt P
      { currentUser := cu, privateKeyRef := q, publicKeyRef := pk,
        aesKeysRef := cache, localStorage := ls, sessionStorage := ss }
      (getMessagesRoute server cu sel) with ⟨ds, cs2⟩
  rw [hq] at hb
  simp [fetchMessages, setPriv, setPrivClient, hb, hq]

theorem handleSendMessage_setPriv (P : CryptoPrims) (fresh : AESKey)
    (ivB64 msgId : String) (now : Nat) (sys : Sys) (p : Option String)
    (sel newMsg : String) :
    handleSendMessage P fresh ivB64 msgId now (setPriv sys p) sel newMsg =
      ((handleSendMessage P fresh ivB64 msgId now sys sel newMsg).1,
       setPriv (handleSendMessage P fresh ivB64 msgId now sys sel newMsg).2.1 p,
       (handleSendMessage P fresh ivB64 msgId now sys sel newMsg).2.2) := by
  cases ht : newMsg.trim == "" with
  | true => simp [handleSendMessage, ht, setPriv, setPrivClient]
  | false =>
      have hg : getOrCreateSessionKey P fresh (setPriv sys p) sel =
          ((getOrCreateSessionKey P fresh sys sel).1,
           setPriv (getOrCreateSessionKey P fresh sys sel).2.1 p,
           (getOrCreateSessionKey P fresh sys sel).2.2) :=
        getOrCreateSessionKey_setPriv P fresh sys p sys.client.privateKeyRef sel
      rcases hq : getOrCreateSessionKey P fresh sys sel with ⟨k, s1, calls1⟩
      rw [hq] at hg
      simp only [handleSendMessage, ht, hg, hq, sealMessage]
      simp only [setPriv, setPrivClient]
      cases hsend : sendMessageRoute s1.server
          { id := msgId, sender := s1.client.currentUser, receiver := sel,
            encryptedContent := P.aesEnc k.raw ivB64 newMsg ++ ":" ++ ivB64,
            messageHash := P.sha newMsg, timestamp := now } with
      | none => simp [hsend]
      | some server2 =>
          have hf : fetchMessages P
              (setPriv { client := s1.client, server := server2 } p) sel =
              ((fetchMessages P { client := s1.client, server := server2 } sel).1,
               setPriv (fetchMessages P { client := s1.client, server := server2 } sel).2.1 p,
               (fetchMessages P { client := s1.client, server := server2 } sel).2.2) :=
            fetchMessages_setPriv P { client := s1.client, server := server2 } p
              s1.client.privateKeyRef sel
          rcases hfq : fetchMessages P { client := s1.client, server := server2 } sel
            with ⟨ds, s3, calls3⟩
          rw [hfq] at hf
          simp only [setPriv, setPrivClient] at hf
          simp [hsend, hf, hfq]

/-! ## C6: private-key confinement -/

/-- C6: the RSA private key lives only in the in-memory ref.
`initializeKeys` transmits exactly the exported public-key string (one
`storePublicKey` call), writes nothing to localStorage, and stores the
private key only in `privateKeyRef`; every other client operation is
oblivious to `privateKeyRef` — replacing it with any value `p` leaves
all returned values, network calls, the server state and localStorage
unchanged (the ref merely passes through, and is dropped on logout).
Hence no operation ever writes the private key to durable storage or
passes it to a Directory Service call. -/
theorem c6_private_key_confinement (P : CryptoPrims) (sys : Sys) (cs : ClientState)
    (p : Option String) (pub priv peer sel newMsg ivB64 msgId : String)
    (k fresh : AESKey) (msg : StoredMessage) (now : Nat) :
    (initializeKeys sys pub priv).2 =
      [ApiCall.storePublicKey sys.client.currentUser pub] ∧
    (initializeKeys sys pub priv).1.client.localStorage = sys.client.localStorage ∧
    (initializeKeys sys pub priv).1.client.privateKeyRef = some priv ∧
    exchangeSessionKey P (setPriv sys p) peer k =
      (setPriv (exchangeSessionKey P sys peer k).1 p,
       (exchangeSessionKey P sys peer k).2) ∧
    getOrCreateSessionKey P fresh (setPriv sys p) peer =
      ((getOrCreateSessionKey P fresh sys peer).1,
       setPriv (getOrCreateSessionKey P fresh sys peer).2.1 p,
       (getOrCreateSessionKey P fresh sys peer).2.2) ∧
    decryptMessage P (setPrivClient cs p) msg =
      ((decryptMessage P cs msg).1,
       setPrivClient (decryptMessage P cs msg).2 p) ∧
    fetchMessages P (setPriv sys p) sel =
      ((fetchMessages P sys sel).1,
       setPriv (fetchMessages P sys sel).2.1 p,
       (fetchMessages P sys sel).2.2) ∧
    handleSendMessage P fresh ivB64 msgId now (setPriv sys p) sel newMsg =
      ((handleSendMessage P fresh ivB64 msgId now sys sel newMsg).1,
       setPriv (handleSendMessage P fresh ivB64 msgId now sys sel newMsg).2.1 p,
       (handleSendMessage P fresh ivB64 msgId now sys sel newMsg).2.2) ∧
    fetchUsers (setPriv sys p) = fetchUsers sys ∧
    appHandleLogout (setPriv sys p) = appHandleLogout sys ∧
    part003HandleLogout (setPriv sys p) = part003HandleLogout sys := by
  refine ⟨?_, ?_, ?_, ?_, ?_, ?_, ?_, ?_, ?_, ?_, ?_⟩
  · rcases sys with ⟨⟨cu, pr, pk2, cache, ls, ss⟩, server⟩
    simp only [initializeKeys]
    cases h : storePublicKeyRoute server cu pub <;> simp [h]
  · rcases sys with ⟨⟨cu, pr, pk2, cache, ls, ss⟩, server⟩
    simp only [initializeKeys]
    cases h : storePublicKeyRoute server cu pub <;> simp [h]
  · rcases sys with ⟨⟨cu, pr, pk2, cache, ls, ss⟩, server⟩
    simp only [initializeKeys]
    cases h : storePublicKeyRoute server cu pub <;> simp [h]
  · exact exchangeSessionKey_setPriv P sys p sys.client.privateKeyRef peer k
  · exact getOrCreateSessionKey_setPriv P fresh sys p sys.client.privateKeyRef peer
  · exact decryptMessage_setPriv P cs p cs.privateKeyRef msg
  · exact fetchMessages_setPriv P sys p sys.client.privateKeyRef sel
  · exact handleSendMessage_setPriv P fresh ivB64 msgId now sys p sel newMsg
  · rcases sys with ⟨⟨cu, pr, pk2, cache, ls, ss⟩, server⟩
    rfl
  · rcases sys with ⟨⟨cu, pr, pk2, cache, ls, ss⟩, server⟩
    simp [appHandleLogout, unmountChat, setPriv, setPrivClient]
  · rcases sys with ⟨⟨cu, pr, pk2, cache, ls, ss⟩, server⟩
    simp [part003HandleLogout, unmountChat, setPriv, setPrivClient]

/-! ## C10: logout lifecycle -/

theorem lookupEntry_filter_ne {α : Type} (m : List (String × α)) (u : String) :
    lookupEntry (m.filter (fun p => p.1 != u)) u = none := by
  induction m with
  | nil => rfl
  | cons x rest ih =>
      by_cases hx : x.1 = u
      · simp [List.filter, hx, ih]
      · have hb : (x.1 != u) = true := by simp [hx]
        simp [List.filter, hb, lookupEntry, hx, ih]

theorem not_mem_listUsers_after_delete (ss : ServerState) (u : String)
    (ex : Option String) :
    u ∉ listUsersRoute (deletePublicKeyRoute ss u) ex := by
  unfold listUsersRoute deletePublicKeyRoute
  intro hmem
  have h2 := List.of_mem_filter hmem
  have honline : u ∉ (ss.publicKeys.filter (fun p => p.1 != u)).map (fun p => p.1) := by
    intro hon
    rcases List.mem_map.mp hon with ⟨pr, hpr, hpr1⟩
    have := List.of_mem_filter hpr
    rw [hpr1] at this
    simp at this
  cases ex with
  | none =>
      exact honline (by simpa using h2)
  | some e =>
      have h3 : u ∈ ((ss.publicKeys.filter (fun p => p.1 != u)).map
          (fun p => p.1)).filter (fun v => v != e) := by
        simpa using h2
      exact honline (List.mem_of_mem_filter h3)

theorem filter_not_then_filter {α : Type} (l : List α) (f : α → Bool) :
    (l.filter (fun a => !(f a))).filter f = [] := by
  induction l with
  | nil => rfl
  | cons x xs ih =>
      by_cases hf : f x = true
      · simp [List.filter, hf, ih]
      · simp only [Bool.not_eq_true] at hf
        simp [List.filter, hf, ih]

/-- C10 counterexample: in the App variant at `src/UI/src/App.tsx`,
logging alice out makes no Directory Service call: her published public
key survives and she still appears in the reachable-identities listing,
contradicting the claim that logout deletes the published key and makes
the identity unreachable. -/
theorem c10_app_logout_keeps_public_key_counterexample :
    (appHandleLogout sysLogout).2 = [] ∧
    (appHandleLogout sysLogout).1.server.publicKeys =
      [("alice", "PKalice"), ("bob", "PKbob")] ∧
    "alice" ∈ listUsersRoute (appHandleLogout sysLogout).1.server none := by
  decide

/-- C10 amended: the two logout variants behave differently.  The
`part_003` variant deletes the published public key from the Directory
Service (one `deletePublicKey` call), after which the identity's key is
gone and the identity is absent from every reachable-identities listing;
its localStorage keeps every entry except the saved `currentUser` item —
in particular all local conversation keys are kept — and the unmounted
chat component drops the in-memory key pair and key cache.  The
`src/UI/src/App.tsx` variant makes no Directory Service call — the
published key and the listing are untouched — and instead clears every
`sessionKey_`-named localStorage entry, also dropping the in-memory key
pair and key cache. -/
theorem c10_logout_variants (sys : Sys) :
    (part003HandleLogout sys).2 = [ApiCall.deletePublicKey sys.client.currentUser] ∧
    getPublicKeyRoute (part003HandleLogout sys).1.server sys.client.currentUser = none ∧
    (∀ ex, sys.client.currentUser ∉
      listUsersRoute (part003HandleLogout sys).1.server ex) ∧
    (part003HandleLogout sys).1.client.privateKeyRef = none ∧
    (part003HandleLogout sys).1.client.publicKeyRef = "" ∧
    (part003HandleLogout sys).1.client.aesKeysRef = [] ∧
    (part003HandleLogout sys).1.client.localStorage =
      removeEntry sys.client.localStorage "currentUser" ∧
    (∀ k v, (k, v) ∈ sys.client.localStorage → k ≠ "currentUser" →
      (k, v) ∈ (part003HandleLogout sys).1.client.localStorage) ∧
    (appHandleLogout sys).2 = [] ∧
    (appHandleLogout sys).1.server = sys.server ∧
    (appHandleLogout sys).1.client.localStorage.filter
      (fun p => p.1.startsWith "sessionKey_") = [] ∧
    (appHandleLogout sys).1.client.privateKeyRef = none ∧
    (appHandleLogout sys).1.client.publicKeyRef = "" ∧
    (appHandleLogout sys).1.client.aesKeysRef = [] := by
  refine ⟨rfl, ?_, ?_, rfl, rfl, rfl, rfl, ?_, rfl, rfl, ?_, rfl, rfl, rfl⟩
  · exact lookupEntry_filter_ne sys.server.publicKeys sys.client.currentUser
  · intro ex
    exact not_mem_listUsers_after_delete sys.server sys.client.currentUser ex
  · intro k v hmem hne
    exact List.mem_filter.mpr ⟨hmem, by simp [hne]⟩
  · exact filter_not_then_filter
      (removeEntry sys.client.localStorage "currentUser")
      (fun p => p.1.startsWith "sessionKey_")

/-- Closed instance of the C10 amended theorem in the alice scenario:
the delete call is issued, alice vanishes from the listing, and her
stored conversation key survives the logout. -/
theorem c10_logout_variants_witness :
    (part003HandleLogout sysLogout).2 =
      [ApiCall.deletePublicKey "alice"] ∧
    "alice" ∉ listUsersRoute (part003HandleLogout sysLogout).1.server none ∧
    (sessionKeyName "alice" "bob", "K") ∈
      (part003HandleLogout sysLogout).1.client.localStorage := by
  have h := c10_logout_variants sysLogout
  exact ⟨h.1, h.2.2.1 none,
    h.2.2.2.2.2.2.2.1 (sessionKeyName "alice" "bob") "K" (by decide) (by decide)⟩

end SecureChat
